import Mathlib

/-!
Verification of the hedgie-gateways collector framework.

This file shallowly embeds the parts of the repository that the checked
properties talk about:

* the dynamic Python values flowing through the normalizers
  (`internal/collectors/*_collector.py`), with Python floats idealized as
  rationals and exceptions as an explicit error type;
* the `_safe_float` helpers of the OKX, Bybit and Deribit collectors;
* the OKX and Binance trade normalizers and their instrument-name /
  date-format conversion (`internal/shared/date_converter.py`);
* the persistence path `BaseCollector.save_trades` (pre-check then insert);
* the Collector Core outer loop of `BaseCollector.start` and
  `BaseCollector._handle_error`;
* the reconnect/backoff loops of the Binance options WebSocket stream and of
  the Deribit/OKX `_collect_data` retry loops;
* the per-partition dedup caches of the Binance and Bybit collectors
  (Python sets modelled as insertion-ordered duplicate-free lists);
* the OHLC paginated-backfill mode machine (`ohlc_collector.py`);
* the Binance `stop()` shutdown sequence and its queue processor task.
-/

/-- Dynamic Python values as they occur in the collectors' payload
dictionaries.  Python floats are idealized as rationals; container values
other than strings never reach the numeric helpers in the embedded code
paths, so they are not represented. -/
inductive PyVal where
  | none
  | str (s : String)
  | int (n : Int)
  | float (q : Rat)
  | bool (b : Bool)
  deriving DecidableEq, Repr

/-- The Python exceptions distinguished by the embedded code. -/
inductive PyErr where
  | valueError
  | typeError
  | keyError
  deriving DecidableEq, Repr

/-- A Python dict with string keys, as received from `json.loads`. -/
def PyDict := List (String × PyVal)

/-- `d.get(k)`: `None` when the key is absent. -/
def dget (d : PyDict) (k : String) : PyVal :=
  (d.lookup k).getD .none

/-- `d.get(k, default)`. -/
def dgetD (d : PyDict) (k : String) (v : PyVal) : PyVal :=
  (d.lookup k).getD v

/-- `d[k]`: raises `KeyError` when the key is absent. -/
def ditem (d : PyDict) (k : String) : Except PyErr PyVal :=
  match d.lookup k with
  | some v => .ok v
  | Option.none => .error .keyError

/-- Python truthiness of the payload values (`if value:`). -/
def pyTruthy : PyVal → Bool
  | .none => false
  | .str s => s ≠ ""
  | .int n => n ≠ 0
  | .float q => q ≠ 0
  | .bool b => b

/-- `str.split(sep)` for a one-character separator, on the character list. -/
def splitChar (sep : Char) : List Char → List (List Char)
  | [] => [[]]
  | c :: cs =>
    match splitChar sep cs with
    | [] => [[]]
    | w :: ws => if c = sep then [] :: w :: ws else (c :: w) :: ws

/-- `s.split(sep)` on strings (Python semantics for a 1-char separator). -/
def strSplit (s : String) (sep : Char) : List String :=
  (splitChar sep s.data).map String.mk

/-- Numeric value of a decimal digit character. -/
def digitVal (c : Char) : Nat := c.toNat - '0'.toNat

/-- Value of a digit string (most significant first). -/
def digitsToNat (cs : List Char) : Nat :=
  cs.foldl (fun a c => a * 10 + digitVal c) 0

/-- Digits of an unsigned decimal integer literal (at least one digit). -/
def parseDigits (cs : List Char) : Option Nat :=
  if cs ≠ [] ∧ cs.all Char.isDigit then some (digitsToNat cs) else Option.none

/-- Strip leading and trailing whitespace, as Python's conversions do. -/
def trimChars (cs : List Char) : List Char :=
  ((cs.dropWhile Char.isWhitespace).reverse.dropWhile Char.isWhitespace).reverse

/-- `float(s)` on the decimal core of Python's float grammar: digits with an
optional decimal point, at least one digit overall. -/
def parseUnsignedFloat (cs : List Char) : Option Rat :=
  match splitChar '.' cs with
  | [i] => (parseDigits i).map (fun n => (n : Rat))
  | [i, f] =>
      if i = [] ∧ f = [] then Option.none
      else if i.all Char.isDigit ∧ f.all Char.isDigit then
        some ((digitsToNat i : Rat) + (digitsToNat f : Rat) / (10 : Rat) ^ f.length)
      else Option.none
  | _ => Option.none

/-- `float(s)` for a Python string argument: optional sign, then the
unsigned form, surrounding whitespace stripped. -/
def parseFloat (s : String) : Option Rat :=
  match trimChars s.data with
  | '-' :: t => (parseUnsignedFloat t).map Neg.neg
  | '+' :: t => parseUnsignedFloat t
  | t => parseUnsignedFloat t

/-- Python's `float(value)` builtin on the embedded value universe:
`TypeError` on `None`, `ValueError` on an unparsable string, numeric
conversion otherwise (floats idealized as rationals, so no overflow). -/
def pythonFloat : PyVal → Except PyErr Rat
  | .none => .error .typeError
  | .str s =>
      match parseFloat s with
      | some q => .ok q
      | Option.none => .error .valueError
  | .int n => .ok (n : Rat)
  | .float q => .ok q
  | .bool b => .ok (if b then 1 else 0)

/-- `int(s)` on a decimal integer literal: optional sign then digits,
whitespace stripped. -/
def parseInt (s : String) : Option Int :=
  match trimChars s.data with
  | '-' :: t => (parseDigits t).map (fun n => -(n : Int))
  | '+' :: t => (parseDigits t).map (fun n => (n : Int))
  | t => (parseDigits t).map (fun n => (n : Int))

/-- Python's `int(value)` builtin on the embedded value universe. -/
def pythonInt : PyVal → Except PyErr Int
  | .none => .error .typeError
  | .str s =>
      match parseInt s with
      | some n => .ok n
      | Option.none => .error .valueError
  | .int n => .ok n
  | .float q => .ok q.floor
  | .bool b => .ok (if b then 1 else 0)

/-- Python's `str(value)` as far as the embedded code inspects it
(it is only ever compared against short literals such as `"-1"`). -/
def pythonStr : PyVal → String
  | .none => "None"
  | .str s => s
  | .int n => toString n
  | .float q => toString q
  | .bool b => if b then "True" else "False"

/-- `OKXCollector._safe_float` (okx_collector.py lines 180-186; the Deribit
version at deribit_collector.py lines 322-329 is textually identical):
return `None` for `None`, otherwise `float(value)`, with `ValueError` and
`TypeError` caught and turned into `None`.  Any other exception would
propagate, hence the `Except` result type. -/
def okxSafeFloat (v : PyVal) : Except PyErr (Option Rat) :=
  if v = .none then .ok Option.none
  else
    match pythonFloat v with
    | .ok q => .ok (some q)
    | .error .valueError => .ok Option.none
    | .error .typeError => .ok Option.none
    | .error e => .error e

/-- `BybitCollector._safe_float` (bybit_collector.py lines 197-203): like the
OKX version but also short-circuits the empty string to `None`. -/
def bybitSafeFloat (v : PyVal) : Except PyErr (Option Rat) :=
  if v = .none ∨ v = .str "" then .ok Option.none
  else
    match pythonFloat v with
    | .ok q => .ok (some q)
    | .error .valueError => .ok Option.none
    | .error .typeError => .ok Option.none
    | .error e => .error e

/-- The value `_safe_float` returns when it does not raise. -/
def safeFloatVal (v : PyVal) : Option Rat :=
  match okxSafeFloat v with
  | .ok r => r
  | .error _ => Option.none

lemma pythonFloat_error_cases (v : PyVal) (e : PyErr) (h : pythonFloat v = .error e) :
    e = .valueError ∨ e = .typeError := by
  cases v with
  | none => simp [pythonFloat] at h; simp [← h]
  | str s =>
      simp only [pythonFloat] at h
      cases hp : parseFloat s with
      | none => rw [hp] at h; simp at h; simp [← h]
      | some q => rw [hp] at h; simp at h
  | int n => simp [pythonFloat] at h
  | float q => simp [pythonFloat] at h
  | bool b => simp [pythonFloat] at h

/-- `_safe_float` never raises: it always returns `safeFloatVal`. -/
lemma okxSafeFloat_eq (v : PyVal) : okxSafeFloat v = .ok (safeFloatVal v) := by
  unfold safeFloatVal okxSafeFloat
  by_cases h : v = .none
  · simp [h]
  · simp only [h, if_false]
    cases hf : pythonFloat v with
    | ok q => simp
    | error e =>
        rcases pythonFloat_error_cases v e hf with he | he <;> subst he <;> simp

/-- The Bybit `_safe_float` never raises either. -/
lemma bybitSafeFloat_never_raises (v : PyVal) :
    ∃ r : Option Rat, bybitSafeFloat v = .ok r := by
  unfold bybitSafeFloat
  by_cases h : v = .none ∨ v = .str ""
  · simp [h]
  · simp only [h, if_false]
    cases hf : pythonFloat v with
    | ok q => exact ⟨some q, rfl⟩
    | error e =>
        rcases pythonFloat_error_cases v e hf with he | he <;> subst he <;> exact ⟨Option.none, rfl⟩

/-- Leap-year rule used by Python's `datetime` (proleptic Gregorian). -/
def isLeapYear (y : Nat) : Bool :=
  y % 4 = 0 && (y % 100 ≠ 0 || y % 400 = 0)

/-- Number of days of month `m` in year `y`. -/
def daysInMonth (y m : Nat) : Nat :=
  if m = 2 then (if isLeapYear y then 29 else 28)
  else if m = 4 ∨ m = 6 ∨ m = 9 ∨ m = 11 then 30
  else 31

/-- `datetime.strptime(s, "%y%m%d")` on the six-digit form `YYMMDD`:
two-digit year (Python maps 00-68 to 2000-2068 and 69-99 to 1969-1999),
then month and day, validated against the calendar.  Any other input makes
the parse fail (`ValueError` in Python).  Returns `(year, month, day)`. -/
def strptimeYYMMDD (s : String) : Option (Nat × Nat × Nat) :=
  if s.data.all Char.isDigit then
    match s.data with
    | [y1, y2, m1, m2, d1, d2] =>
        let yy := digitVal y1 * 10 + digitVal y2
        let year := if yy ≤ 68 then 2000 + yy else 1900 + yy
        let month := digitVal m1 * 10 + digitVal m2
        let day := digitVal d1 * 10 + digitVal d2
        if 1 ≤ month ∧ month ≤ 12 ∧ 1 ≤ day ∧ day ≤ daysInMonth year month then
          some (year, month, day)
        else Option.none
    | _ => Option.none
  else Option.none

/-- Zero-padded two-digit decimal rendering, as `strftime` `%d`/`%y` do. -/
def pad2 (n : Nat) : String :=
  if n < 10 then "0" ++ toString n else toString n

/-- `strftime("%b").upper()`: upper-cased English month abbreviation. -/
def monthAbbrevUpper (m : Nat) : String :=
  ["JAN", "FEB", "MAR", "APR", "MAY", "JUN",
   "JUL", "AUG", "SEP", "OCT", "NOV", "DEC"].getD (m - 1) ""

/-- `date_obj.strftime("%d%b%y").upper()` on a parsed `(year, month, day)`. -/
def strftimeDMonY (ymd : Nat × Nat × Nat) : String :=
  pad2 ymd.2.2 ++ monthAbbrevUpper ymd.2.1 ++ pad2 (ymd.1 % 100)

/-- `OKXCollector._convert_instrument_name` (okx_collector.py lines 155-178)
on a string argument: split on `-`; anything but exactly five tokens is
returned unchanged; re-encode token three from `YYMMDD` to `DDMONYY`
(upper case) and drop the second token; any conversion error returns the
input unchanged (the function catches every exception). -/
def okxConvertInstrumentName (okx_name : String) : String :=
  match strSplit okx_name '-' with
  | [currency, _, date_code, strike_price, option_type] =>
      match strptimeYYMMDD date_code with
      | some ymd =>
          currency ++ "-" ++ strftimeDMonY ymd ++ "-" ++ strike_price ++ "-" ++ option_type
      | Option.none => okx_name
  | _ => okx_name

/-- The same function on an arbitrary payload value: a non-string argument
makes `okx_name.split` raise `AttributeError`, which the function's
catch-all turns into returning the argument unchanged. -/
def okxConvertInstrumentNameVal (v : PyVal) : PyVal :=
  match v with
  | .str s => .str (okxConvertInstrumentName s)
  | other => other

/-- `normalize_binance_instrument_name` (date_converter.py lines 3-17):
same date re-encoding on the four-token form `CUR-YYMMDD-STRIKE-TYPE`. -/
def normalizeBinanceInstrumentName (instrument_name : String) : String :=
  match strSplit instrument_name '-' with
  | [currency, date_part, strike, option_type] =>
      match strptimeYYMMDD date_part with
      | some ymd =>
          currency ++ "-" ++ strftimeDMonY ymd ++ "-" ++ strike ++ "-" ++ option_type
      | Option.none => instrument_name
  | _ => instrument_name


/-- The canonical OKX trade record built by `OKXCollector._process_trade`
(okx_collector.py lines 123-153).  `trade_id`, `instrument_name` and
`direction` are stored as the raw payload values, as the code does;
the timestamp is kept in epoch milliseconds. -/
structure OkxTrade where
  trade_id : PyVal
  mark_price : Option Rat
  amount : Rat
  instrument_name : PyVal
  index_price : Option Rat
  direction : PyVal
  price : Option Rat
  iv : Option Rat
  timestamp : Int
  deriving DecidableEq, Repr

/-- The body of `OKXCollector._process_trade`'s `try` block, in evaluation
order; an uncaught exception appears as `.error`. -/
def okxProcessTradeE (trade : PyDict) : Except PyErr OkxTrade := do
  let tsv ← ditem trade "ts"
  let timestamp_ms ← pythonInt tsv
  let instrument_name := okxConvertInstrumentNameVal (dgetD trade "instId" (.str ""))
  let szq ← pythonFloat (dgetD trade "sz" (.int 0))
  let amount := szq * (0.01 : Rat)
  let iv ← match dget trade "fillVol" with
    | .none => pure Option.none
    | _ => do
        let q ← pythonFloat (dgetD trade "fillVol" (.int 0))
        pure (some (q * 100))
  let trade_id ← ditem trade "tradeId"
  let mark_price ← okxSafeFloat (dget trade "markPx")
  let index_price ← okxSafeFloat (dget trade "idxPx")
  let direction := dget trade "side"
  let price ← okxSafeFloat (dget trade "px")
  pure { trade_id, mark_price, amount, instrument_name, index_price,
         direction, price, iv, timestamp := timestamp_ms }

/-- `OKXCollector._process_trade`: the `except Exception` handler turns any
raised exception into a `None` result (the record is discarded). -/
def okxProcessTrade (trade : PyDict) : Option OkxTrade :=
  match okxProcessTradeE trade with
  | .ok t => some t
  | .error _ => Option.none

/-- The canonical Binance trade record built by
`BinanceCollector._process_single_trade` (binance_collector.py lines 68-123).
The timestamp is kept in epoch milliseconds (rational, since Python mixes
int and float epoch values here). -/
structure BinanceTrade where
  trade_id : Int
  contracts : Rat
  amount : Rat
  instrument_name : PyVal
  direction : String
  price : Rat
  timestamp : Rat
  deriving DecidableEq, Repr

/-- One `try: x = conv(raw) if raw else None; except (ValueError, TypeError):
return` step of `_process_single_trade`: outer `none` means the whole
function returned early, inner `Option` is the Python variable. -/
def tryConvert {α : Type} (raw : PyVal) (conv : Except PyErr α) : Option (Option α) :=
  if pyTruthy raw then
    match conv with
    | .ok a => some (some a)
    | .error _ => Option.none
  else some Option.none

/-- The timestamp branch of `_process_single_trade` (lines 99-105):
positive int/float epoch values above `1e12` are taken as milliseconds,
other positive ones as seconds; anything else falls back to `utcnow`
(passed in as `now`, in milliseconds). -/
def binanceTimestampMs (v : PyVal) (now : Rat) : Rat :=
  match v with
  | .int n => if (n : Rat) > 0 then (if (n : Rat) > 10 ^ 12 then (n : Rat) else n * 1000) else now
  | .float q => if q > 0 then (if q > 10 ^ 12 then q else q * 1000) else now
  | .bool b => if b then 1000 else now
  | _ => now

/-- The normalization part of `BinanceCollector._process_single_trade`
(lines 68-123): field extraction with defaults, guarded int/float
conversion where a parse failure discards the whole record, the mandatory
field check, the dedup-cache membership check, direction decoding and
amount computation.  `none` means the function returned before reaching
the persistence call. -/
def binanceProcessSingleTrade (trade : PyDict) (cache : List String) (now : Rat) :
    Option BinanceTrade := do
  let symbol := dgetD trade "s" (.str "")
  let trade_id_raw := dgetD trade "t" (.str "")
  let price_raw := dgetD trade "p" (.str "")
  let quantity_raw := dgetD trade "q" (.str "")
  let direction_code := dgetD trade "S" (.str "1")
  let trade_time := dgetD trade "T" (.int 0)
  let trade_id ← tryConvert trade_id_raw (pythonInt trade_id_raw)
  let price ← tryConvert price_raw (pythonFloat price_raw)
  let quantity ← tryConvert quantity_raw (pythonFloat quantity_raw)
  if pyTruthy symbol ∧ trade_id.isSome ∧ price.isSome ∧ quantity.isSome then
    match trade_id, price, quantity with
    | some tid, some p, some q => do
        let trade_id_str := pythonStr (.int tid)
        if trade_id_str ≠ "" ∧ trade_id_str ∈ cache then Option.none
        else
          let timestamp := binanceTimestampMs trade_time now
          let direction := if pythonStr direction_code = "-1" then "sell" else "buy"
          let abs_quantity := |q|
          let amount := abs_quantity * p
          pure { trade_id := tid, contracts := abs_quantity, amount,
                 instrument_name := symbol, direction, price := p, timestamp }
    | _, _, _ => Option.none
  else Option.none


/-- One iteration of the `for trade in trades` loop of
`BaseCollector.save_trades` (base_collector.py lines 134-144): query
`SELECT 1 ... WHERE trade_id = $1`; skip the trade when a row exists,
otherwise run `_insert_trade_async`.  A table is modelled by the list of
`trade_id` values of its rows, in insertion order, since the claim is about
logical rows per natural key. -/
def saveTradeStep (table : List String) (trade_id : String) : List String :=
  if table.contains trade_id then table else table ++ [trade_id]

/-- `BaseCollector.save_trades` on one batch (lines 126-150): the per-trade
existence pre-check runs inside the loop, on the connection that also
receives the inserts, so each trade sees the rows inserted earlier in the
same batch. -/
def saveTrades (table : List String) (trades : List String) : List String :=
  trades.foldl saveTradeStep table

lemma saveTradeStep_count_le (table : List String) (tid k : String)
    (h : table.count k ≤ 1) : (saveTradeStep table tid).count k ≤ 1 := by
  unfold saveTradeStep
  by_cases hc : tid ∈ table
  · simp [hc, h]
  · have hc' : table.contains tid = false := by
      by_contra hb
      exact hc (List.elem_iff.mp (eq_true_of_ne_false hb))
    simp only [hc', Bool.false_eq_true, if_false]
    rcases eq_or_ne tid k with rfl | hne
    · have h0 : table.count tid = 0 := List.count_eq_zero.mpr hc
      simp [List.count_append, h0]
    · simpa [List.count_append, List.count_singleton, hne] using h

lemma saveTrades_count_le (table : List String) (trades : List String) (k : String)
    (h : table.count k ≤ 1) : (saveTrades table trades).count k ≤ 1 := by
  induction trades generalizing table with
  | nil => simpa [saveTrades] using h
  | cons t ts ih =>
      have := ih (saveTradeStep table t) (saveTradeStep_count_le table t k h)
      simpa [saveTrades, List.foldl_cons] using this

/-- Statistics and loop state of `BaseCollector` (base_collector.py
lines 13-22): the fields touched by the outer collection loop. -/
structure CoreState where
  running : Bool
  totalRequests : Nat
  failedRequests : Nat
  errorStreak : Nat
  deriving DecidableEq, Repr

/-- Alerts emitted through the notification service. -/
inductive Alert where
  | connectionError
  | highErrorRate
  deriving DecidableEq, Repr

/-- `BaseCollector._handle_error` (lines 103-110): a connection-error alert
when the error streak has reached 5, and a high-error-rate alert when more
than 20 requests were made and `failed / total * 100 > 50` (stated exactly
as `100 * failed > 50 * total`, which is equivalent for `total > 0`). -/
def handleError (s : CoreState) : List Alert :=
  (if 5 ≤ s.errorStreak then [Alert.connectionError] else []) ++
  (if 20 < s.totalRequests ∧ 50 * s.totalRequests < 100 * s.failedRequests then
    [Alert.highErrorRate] else [])

/-- Outcome of one `_collect_data` cycle as seen by the outer loop of
`BaseCollector.start`: it either returns normally or raises. -/
inductive CycleResult where
  | ok
  | err
  deriving DecidableEq, Repr

/-- One iteration of the `while self.running` loop of `BaseCollector.start`
(lines 47-61): on success reset the error streak; on an exception increment
`failed_requests` and `error_streak` and run `_handle_error`.  Both branches
then sleep the configured interval (not modelled) and loop.  Returns the new
state and the alerts emitted. -/
def loopStep (s : CoreState) (r : CycleResult) : CoreState × List Alert :=
  match r with
  | .ok => ({ s with errorStreak := 0 }, [])
  | .err =>
      let s1 := { s with failedRequests := s.failedRequests + 1,
                         errorStreak := s.errorStreak + 1 }
      (s1, handleError s1)

/-- The outer loop of `BaseCollector.start` over a trace of cycle outcomes:
it runs one `loopStep` per outcome while `running` holds, collecting all
alerts and counting the cycles executed. -/
def runLoop (s : CoreState) : List CycleResult → CoreState × List Alert × Nat
  | [] => (s, [], 0)
  | r :: rest =>
      if s.running then
        let (s1, alerts) := loopStep s r
        let (s2, rest_alerts, n) := runLoop s1 rest
        (s2, alerts ++ rest_alerts, n + 1)
      else (s, [], 0)

lemma loopStep_running (s : CoreState) (r : CycleResult) :
    ((loopStep s r).1).running = s.running := by
  cases r <;> rfl

lemma runLoop_executes_all (s : CoreState) (rs : List CycleResult)
    (h : s.running = true) : (runLoop s rs).2.2 = rs.length := by
  induction rs generalizing s with
  | nil => rfl
  | cons r rest ih =>
      have h1 : ((loopStep s r).1).running = true := by rw [loopStep_running, h]
      simp only [runLoop, h, if_true]
      have := ih (loopStep s r).1 h1
      simp [this]

lemma runLoop_running (s : CoreState) (rs : List CycleResult)
    (h : s.running = true) : ((runLoop s rs).1).running = true := by
  induction rs generalizing s with
  | nil => simpa [runLoop] using h
  | cons r rest ih =>
      have h1 : ((loopStep s r).1).running = true := by rw [loopStep_running, h]
      simp only [runLoop, h, if_true]
      exact ih (loopStep s r).1 h1

/-- One iteration of the `while not self._stop_event.is_set()` reconnect
loop of `BinanceCollector._options_websocket_stream` (binance_collector.py
lines 155-187).  `ok` says whether the `websockets.connect` attempt
succeeded (a success resets `reconnect_delay` to 1 before the stream
eventually drops).  Every iteration then sleeps the current delay and
doubles it, capped at `max_reconnect_delay = 60`.  Returns the delay slept
this iteration and the delay carried into the next one. -/
def binanceIter (reconnect_delay : Nat) (ok : Bool) : Nat × Nat :=
  let d := if ok then 1 else reconnect_delay
  (d, min (d * 2) 60)

/-- The sleep sequence of the Binance reconnect loop over a trace of
connect outcomes. -/
def binanceRun (reconnect_delay : Nat) : List Bool → List Nat
  | [] => []
  | ok :: rest =>
      let (slept, next) := binanceIter reconnect_delay ok
      slept :: binanceRun next rest

/-- The sleep `min(retry_count * 2, 30)` of the Deribit `_collect_data`
retry loop (deribit_collector.py lines 47-55; okx_collector.py lines 36-44
are identical), after the `retry_count`-th consecutive failure. -/
def deribitRetryDelay (retry_count : Nat) : Nat :=
  min (retry_count * 2) 30

lemma min_double_pow (j : Nat) : min (min (2 ^ j) 60 * 2) 60 = min (2 ^ (j + 1)) 60 := by
  rcases le_total (2 ^ j) 60 with h | h
  · rw [Nat.min_eq_left h, pow_succ]
  · have h2 : (60 : Nat) ≤ 2 ^ (j + 1) :=
      le_trans h (Nat.pow_le_pow_right (by norm_num) (Nat.le_succ j))
    rw [Nat.min_eq_right h, Nat.min_eq_right h2]
    norm_num

lemma binanceRun_replicate_aux (k j : Nat) :
    binanceRun (min (2 ^ j) 60) (List.replicate k false) =
      (List.range k).map (fun i => min (2 ^ (j + i)) 60) := by
  induction k generalizing j with
  | zero => rfl
  | succ n ih =>
      rw [List.replicate_succ, List.range_succ_eq_map]
      simp only [binanceRun, binanceIter, Bool.false_eq_true, if_false, List.map_cons]
      rw [min_double_pow j, ih (j + 1)]
      simp only [List.map_map, Nat.add_zero]
      congr 1
      apply List.map_congr_left
      intro i _
      simp only [Function.comp_apply, Nat.succ_eq_add_one]
      congr 2
      omega

/-- The `while self.running and retry_count < max_retries` loop of
`OKXCollector._collect_data` (okx_collector.py lines 27-48;
`DeribitCollector._collect_data`, deribit_collector.py lines 37-59, is
identical): each entry of `attempts` says whether that
`_connect_and_subscribe` call returned without raising (which resets
`retry_count` to 0); any raise increments `retry_count`.  Returns the final
`retry_count`.  `running` is true throughout (`stop()` is not called). -/
def okxRetryLoop : Nat → List Bool → Nat
  | retry_count, [] => retry_count
  | retry_count, ok :: rest =>
      if 5 ≤ retry_count then retry_count
      else okxRetryLoop (if ok then 0 else retry_count + 1) rest

/-- `OKXCollector._collect_data` as one collection cycle: every exception in
the loop body is caught there, so the cycle itself never raises; after the
loop, `if retry_count >= max_retries: self.running = False`.  Returns the
value of `self.running` when the cycle hands control back to
`BaseCollector.start`. -/
def okxCollectData (attempts : List Bool) : Bool :=
  if 5 ≤ okxRetryLoop 0 attempts then false else true

/-- `set.add` under the insertion-ordered model of a Python set: a list
without duplicates, newest last. -/
def cacheAdd {α : Type} [DecidableEq α] (cache : List α) (k : α) : List α :=
  if cache.contains k then cache else cache ++ [k]

/-- `BinanceCollector.max_cache_size` (binance_collector.py line 24). -/
def binanceMaxCacheSize : Nat := 5000

/-- `BinanceCollector._cleanup_cache` (lines 218-225): when the size exceeds
`max_cache_size`, discard `size - int(max_cache_size * 0.8)` entries from
the iteration front of the set (the oldest ones under the insertion-ordered
model). -/
def binanceCleanupCache {α : Type} [DecidableEq α] (cache : List α) : List α :=
  if binanceMaxCacheSize < cache.length then
    cache.drop (cache.length - binanceMaxCacheSize * 8 / 10)
  else cache

/-- The per-trade cache update of `_process_single_trade` (lines 130-132):
`processed_trade_ids[underlying].add(trade_id_str)` followed by
`_cleanup_cache(underlying)`. -/
def binanceRecordTrade {α : Type} [DecidableEq α] (cache : List α) (k : α) : List α :=
  binanceCleanupCache (cacheAdd cache k)

/-- `BybitCollector.max_cache_size` (bybit_collector.py line 22). -/
def bybitMaxCacheSize : Nat := 10000

/-- `BybitCollector._update_cache` (lines 106-118): add every (truthy)
trade id of the batch, then, when the size exceeds `max_cache_size`,
discard `size - max_cache_size` entries from the iteration front. -/
def bybitUpdateCache {α : Type} [DecidableEq α] (cache : List α) (trade_ids : List α) :
    List α :=
  let c := trade_ids.foldl cacheAdd cache
  if bybitMaxCacheSize < c.length then c.drop (c.length - bybitMaxCacheSize) else c

lemma cacheAdd_fresh {α : Type} [DecidableEq α] (cache : List α) (k : α) (h : k ∉ cache) :
    cacheAdd cache k = cache ++ [k] := by
  have hc : cache.contains k = false := by
    by_contra hb
    exact h (List.elem_iff.mp (eq_true_of_ne_false hb))
  rw [cacheAdd, hc]
  simp

lemma foldl_cacheAdd_fresh {α : Type} [DecidableEq α] (ks cache : List α)
    (h : (cache ++ ks).Nodup) : ks.foldl cacheAdd cache = cache ++ ks := by
  induction ks generalizing cache with
  | nil => simp
  | cons k rest ih =>
      have hk : k ∉ cache := fun hmem =>
        (List.disjoint_of_nodup_append h) hmem (List.mem_cons_self k rest)
      have h2 : ((cache ++ [k]) ++ rest).Nodup := by
        have heq : cache ++ k :: rest = (cache ++ [k]) ++ rest := by simp
        rwa [heq] at h
      rw [List.foldl_cons, cacheAdd_fresh cache k hk, ih (cache ++ [k]) h2]
      simp

lemma foldl_binanceRecord_no_evict {α : Type} [DecidableEq α] (ks cache : List α)
    (h : (cache ++ ks).Nodup) (hlen : cache.length + ks.length ≤ binanceMaxCacheSize) :
    ks.foldl binanceRecordTrade cache = cache ++ ks := by
  induction ks generalizing cache with
  | nil => simp
  | cons k rest ih =>
      have hk : k ∉ cache := fun hmem =>
        (List.disjoint_of_nodup_append h) hmem (List.mem_cons_self k rest)
      have hstep : binanceRecordTrade cache k = cache ++ [k] := by
        have hlt : ¬ binanceMaxCacheSize < (cache ++ [k]).length := by
          simp only [List.length_append, List.length_singleton]
          simp only [List.length_cons] at hlen
          omega
        rw [binanceRecordTrade, cacheAdd_fresh cache k hk, binanceCleanupCache, if_neg hlt]
      have h2 : ((cache ++ [k]) ++ rest).Nodup := by
        have heq : cache ++ k :: rest = (cache ++ [k]) ++ rest := by simp
        rwa [heq] at h
      have hlen2 : (cache ++ [k]).length + rest.length ≤ binanceMaxCacheSize := by
        simp only [List.length_append, List.length_singleton]
        simp only [List.length_cons] at hlen
        omega
      rw [List.foldl_cons, hstep, ih (cache ++ [k]) h2 hlen2]
      simp

/-- Per-currency backfill status of `OHLCCollector` (ohlc_collector.py
lines 23-26): `catching_up` and `last_timestamp` (epoch milliseconds). -/
structure OhlcStatus where
  catchingUp : Bool
  lastTimestamp : Int
  deriving DecidableEq, Repr

/-- `2 * 60 * 60 * 1000` milliseconds, the staleness bound of
`_collect_currency_data` and `_check_last_saved_data`. -/
def twoHoursMs : Int := 2 * 60 * 60 * 1000

/-- The cursor/mode update of `OHLCCollector._collect_currency_data` after a
page of new candles has been persisted (ohlc_collector.py lines 116-133):
the cursor becomes `max(candle['open_time'] for candle in new_candles)`
(`page_max` here), and only a collector still catching up compares
`now - page_max` against two hours to switch to live mode. -/
def ohlcAfterPersist (status : OhlcStatus) (page_max now : Int) : OhlcStatus :=
  let status1 := { status with lastTimestamp := page_max }
  if status1.catchingUp then
    if now - page_max < twoHoursMs then { status1 with catchingUp := false }
    else status1
  else status1

/-- `OHLCCollector._check_last_saved_data` for one currency (lines 43-70):
seed the cursor from `MAX(open_time)` when present (earliest-data constant
otherwise), and leave catch-up mode only when the found data is younger
than two hours. -/
def ohlcInitStatus (db_max : Option Int) (earliest now : Int) : OhlcStatus :=
  match db_max with
  | some result =>
      if now - result < twoHoursMs then ⟨false, result⟩ else ⟨true, result⟩
  | Option.none => ⟨true, earliest⟩

/-- State of the Binance trade queue and its processor task at shutdown
time: items still enqueued, items fully processed, and whether the
processor task is still alive (not cancelled). -/
structure BinanceQueueState where
  pending : List Nat
  processed : List Nat
  processorAlive : Bool
  deriving DecidableEq, Repr

/-- One scheduling step of `_process_trade_queue` (binance_collector.py
lines 53-66): a live processor dequeues and processes one item; a cancelled
task runs no further iterations. -/
def processorStep (s : BinanceQueueState) : BinanceQueueState :=
  if s.processorAlive then
    match s.pending with
    | [] => s
    | x :: rest => { s with pending := rest, processed := s.processed ++ [x] }
  else s

/-- `BinanceCollector.stop` (lines 253-264) up to the queue handling: set
`_stop_event`, then cancel `_trade_processor_task` and await it, and only
then — when the queue is non-empty — await `trade_queue.join()`.
Cancellation means no further `processorStep` makes progress, so `join()`
(which needs every enqueued item marked done) can complete only if the
queue was already empty; the second component reports whether `stop()` can
ever finish. -/
def binanceStop (s : BinanceQueueState) : BinanceQueueState × Bool :=
  let s1 := { s with processorAlive := false }
  (s1, s1.pending.isEmpty)

/-- An OKX option-trade payload with every field the normalizer needs,
except that the traded price `px` is left as a parameter. -/
def okxPayloadWithPx (pxv : PyVal) : PyDict :=
  [("ts", .str "1711700000000"), ("instId", .str "BTC-USD-240329-60000-C"),
   ("sz", .str "10"), ("tradeId", .str "123"), ("side", .str "buy"), ("px", pxv)]

/-- The same payload with the natural key `tradeId` missing. -/
def okxPayloadNoTradeId : PyDict :=
  [("ts", .str "1711700000000"), ("instId", .str "BTC-USD-240329-60000-C"),
   ("sz", .str "10"), ("side", .str "buy"), ("px", .str "10")]

/-- The same payload with an unparsable contract size `sz`. -/
def okxPayloadBadSz : PyDict :=
  [("ts", .str "1711700000000"), ("instId", .str "BTC-USD-240329-60000-C"),
   ("sz", .str "x"), ("tradeId", .str "123"), ("side", .str "buy"), ("px", .str "10")]

/-- A Binance option-trade payload with valid symbol, trade id and quantity,
and the price field left as a parameter. -/
def binancePayloadWithP (pv : PyVal) : PyDict :=
  [("s", .str "BTC-240329-60000-C"), ("t", .str "1"), ("p", pv), ("q", .str "2")]

lemma okxRetryLoop_replicate (k : Nat) : ∀ rc : Nat, rc ≤ 5 →
    okxRetryLoop rc (List.replicate k false) = min (rc + k) 5 := by
  induction k with
  | zero => intro rc h; simp [okxRetryLoop, Nat.min_eq_left h]
  | succ n ih =>
      intro rc h
      rw [List.replicate_succ, okxRetryLoop]
      by_cases h5 : 5 ≤ rc
      · have hrc : rc = 5 := le_antisymm h h5
        subst hrc
        rw [if_pos h5]
        omega
      · rw [if_neg h5]
        simp only [Bool.false_eq_true, if_false]
        rw [ih (rc + 1) (by omega)]
        omega

lemma okxRetryLoop_skip_success (j : Nat) : ∀ (rc : Nat) (rest : List Bool), rc + j < 5 →
    okxRetryLoop rc (List.replicate j false ++ true :: rest) = okxRetryLoop 0 rest := by
  induction j with
  | zero =>
      intro rc rest h
      simp only [List.replicate, List.nil_append, okxRetryLoop]
      rw [if_neg (by omega)]
      simp
  | succ n ih =>
      intro rc rest h
      rw [List.replicate_succ, List.cons_append, okxRetryLoop]
      rw [if_neg (by omega)]
      simp only [Bool.false_eq_true, if_false]
      exact ih (rc + 1) rest (by omega)

/-- C1: for every sequence of trade batches submitted to
`BaseCollector.save_trades`, a natural key (`trade_id`) that starts with at
most one row in the table still has at most one row afterwards, no matter
how often it is submitted: the save path pre-checks existence per trade
before calling `_insert_trade_async`, so a key already present is never
inserted twice. -/
theorem save_trades_idempotent_per_key (table : List String)
    (batches : List (List String)) (k : String) (h : table.count k ≤ 1) :
    (batches.foldl saveTrades table).count k ≤ 1 := by
  induction batches generalizing table with
  | nil => simpa using h
  | cons b bs ih =>
      have := ih (saveTrades table b) (saveTrades_count_le table b k h)
      simpa [List.foldl_cons] using this

/-- Witness for C1: the key `"a"` submitted three times over two batches
into an empty table yields at most one row. -/
theorem save_trades_idempotent_per_key_witness :
    ([] : List String).count "a" ≤ 1 ∧
    (List.foldl saveTrades [] [["a", "a"], ["a"]]).count "a" ≤ 1 :=
  ⟨by decide, save_trades_idempotent_per_key [] [["a", "a"], ["a"]] "a" (by decide)⟩

/-- C9: the exchange-native instrument token sequence
`BTC-USD-240329-60000-C` converts to the canonical `BTC-29MAR24-60000-C`
(currency, date re-encoded from `YYMMDD` to `DDMONYY` upper case, strike,
option type); the Binance four-token variant agrees. -/
theorem instrument_name_conversion_canonical :
    okxConvertInstrumentName "BTC-USD-240329-60000-C" = "BTC-29MAR24-60000-C" ∧
    normalizeBinanceInstrumentName "BTC-240329-60000-C" = "BTC-29MAR24-60000-C" := by
  decide

lemma safeFloatVal_of_ok (v : PyVal) (q : Rat) (hn : v ≠ .none)
    (hf : pythonFloat v = .ok q) : safeFloatVal v = some q := by
  unfold safeFloatVal okxSafeFloat
  simp [hn, hf]

lemma safeFloatVal_of_error (v : PyVal) (e : PyErr)
    (hf : pythonFloat v = .error e) : safeFloatVal v = Option.none := by
  unfold safeFloatVal okxSafeFloat
  by_cases hn : v = .none
  · simp [hn]
  · rcases pythonFloat_error_cases v e hf with he | he <;> subst he <;> simp [hn, hf]

lemma bybitSafeFloat_of_ok (v : PyVal) (q : Rat) (hn : v ≠ .none)
    (hn2 : v ≠ .str "") (hf : pythonFloat v = .ok q) :
    bybitSafeFloat v = .ok (some q) := by
  rw [bybitSafeFloat, if_neg (by tauto), hf]

lemma bybitSafeFloat_of_error (v : PyVal) (e : PyErr)
    (hf : pythonFloat v = .error e) : bybitSafeFloat v = .ok Option.none := by
  by_cases hn : v = .none ∨ v = .str ""
  · rw [bybitSafeFloat, if_pos hn]
  · rcases pythonFloat_error_cases v e hf with he | he <;> subst he <;>
      rw [bybitSafeFloat, if_neg hn, hf]

/-- C10: `_safe_float` is total on every input value: the OKX/Deribit
version and the Bybit version never raise, and they return `None` exactly
when the input is `None`, the empty string, or a value on which `float()`
fails (the empty string is also an unparsable `float()` argument, listed
separately because the Bybit version short-circuits it). -/
theorem safe_float_total (v : PyVal) :
    (okxSafeFloat v = .ok (safeFloatVal v) ∧
      (safeFloatVal v = Option.none ↔
        (v = .none ∨ v = .str "" ∨ ∃ e, pythonFloat v = .error e))) ∧
    (∃ r : Option Rat, bybitSafeFloat v = .ok r ∧
      (r = Option.none ↔
        (v = .none ∨ v = .str "" ∨ ∃ e, pythonFloat v = .error e))) := by
  have hempty : pythonFloat (.str "") = .error .valueError := rfl
  constructor
  · refine ⟨okxSafeFloat_eq v, ?_, ?_⟩
    · intro h0
      by_cases hn : v = .none
      · exact Or.inl hn
      · cases hf : pythonFloat v with
        | ok q => rw [safeFloatVal_of_ok v q hn hf] at h0; simp at h0
        | error e => exact Or.inr (Or.inr ⟨e, rfl⟩)
    · rintro (hs | hs | ⟨e, he⟩)
      · subst hs; rfl
      · subst hs; exact safeFloatVal_of_error _ _ hempty
      · exact safeFloatVal_of_error _ _ he
  · by_cases hn : v = .none
    · exact ⟨Option.none, by rw [bybitSafeFloat, if_pos (Or.inl hn)], by simp [hn]⟩
    · by_cases hn2 : v = .str ""
      · exact ⟨Option.none, by rw [bybitSafeFloat, if_pos (Or.inr hn2)], by simp [hn2]⟩
      · cases hf : pythonFloat v with
        | ok q =>
            refine ⟨some q, bybitSafeFloat_of_ok v q hn hn2 hf, ?_⟩
            simp only [reduceCtorEq, false_iff]
            rintro (hs | hs | ⟨e, he⟩)
            · exact hn hs
            · exact hn2 hs
            · exact he
        | error e =>
            exact ⟨Option.none, bybitSafeFloat_of_error v e hf,
              by simp only [true_iff]; exact Or.inr (Or.inr ⟨e, rfl⟩)⟩

/-- C2: every exception raised by a collection cycle while the collector is
running is absorbed by the outer loop of `BaseCollector.start`: the loop
executes one step per cycle outcome and never stops early (`running` is
left untouched by error handling — only `stop()` clears it), and each
failed cycle increments `failed_requests` and the error streak by exactly
one and performs the alert evaluation of `_handle_error`: a
connection-error alert exactly when the incremented streak has reached 5,
and a high-error-rate alert exactly when more than 20 requests were made
and the failure ratio exceeds 50%.  (The fixed-interval sleep between
cycles is not part of the state model.) -/
theorem outer_loop_absorbs_cycle_errors (s : CoreState) (rs : List CycleResult)
    (h : s.running = true) :
    (runLoop s rs).2.2 = rs.length ∧
    ((runLoop s rs).1).running = true ∧
    (∀ t : CoreState,
      ((loopStep t .err).1).failedRequests = t.failedRequests + 1 ∧
      ((loopStep t .err).1).errorStreak = t.errorStreak + 1 ∧
      ((loopStep t .err).1).running = t.running ∧
      ((loopStep t .err).1).totalRequests = t.totalRequests ∧
      (Alert.connectionError ∈ (loopStep t .err).2 ↔ 5 ≤ t.errorStreak + 1) ∧
      (Alert.highErrorRate ∈ (loopStep t .err).2 ↔
        (20 < t.totalRequests ∧ 50 * t.totalRequests < 100 * (t.failedRequests + 1)))) := by
  refine ⟨runLoop_executes_all s rs h, runLoop_running s rs h, ?_⟩
  intro t
  refine ⟨rfl, rfl, rfl, rfl, ?_, ?_⟩
  · simp only [loopStep, handleError, List.mem_append]
    constructor
    · rintro (hmem | hmem) <;> by_cases hc : 5 ≤ t.errorStreak + 1 <;>
        by_cases hr : 20 < t.totalRequests ∧ 50 * t.totalRequests < 100 * (t.failedRequests + 1) <;>
        simp_all
    · intro hc
      left
      simp [hc]
  · simp only [loopStep, handleError, List.mem_append]
    constructor
    · rintro (hmem | hmem) <;> by_cases hc : 5 ≤ t.errorStreak + 1 <;>
        by_cases hr : 20 < t.totalRequests ∧ 50 * t.totalRequests < 100 * (t.failedRequests + 1) <;>
        simp_all
    · intro hr
      right
      simp [hr.1, hr.2]

/-- Witness for C2: a running collector with 25 total and 20 failed requests
and streak 4 processes both cycles of an all-error trace. -/
theorem outer_loop_absorbs_cycle_errors_witness :
    (runLoop ⟨true, 25, 20, 4⟩ [CycleResult.err, CycleResult.err]).2.2 = 2 :=
  (outer_loop_absorbs_cycle_errors ⟨true, 25, 20, 4⟩ [CycleResult.err, CycleResult.err] rfl).1

/-- C3 counterexample: the claimed reconnect-delay sequence
`1, 2, 4, 8, 16, 32, 60, 60, ...` fails on the Deribit (and OKX)
`_collect_data` retry loop, one of the code locations the claim is about:
after the first failed attempt that loop sleeps `min(1 * 2, 30) = 2`
seconds, not 1, and its delays grow linearly with cap 30, not
exponentially with cap 60 (the fifth delay is 10, not 16). -/
theorem deribit_reconnect_delay_not_exponential :
    deribitRetryDelay 1 = 2 ∧ deribitRetryDelay 1 ≠ 1 ∧
    deribitRetryDelay 5 = 10 ∧ deribitRetryDelay 5 ≠ 16 := by decide

/-- C3 amended: the Binance options WebSocket stream follows the claimed
schedule exactly — over any run of consecutive connect failures the
successive sleeps are `min(2^i, 60)`, i.e. `1, 2, 4, 8, 16, 32, 60, 60,
...`, and a successful reconnect resets the delay to 1 second (the sleep
after the success-terminated stream drop is again 1, then 2, 4, ...) —
while the Deribit/OKX `_collect_data` loops instead sleep
`min(2 * attempt, 30)` seconds after the `attempt`-th consecutive
failure. -/
theorem reconnect_backoff_sequences :
    (∀ k : Nat, binanceRun 1 (List.replicate k false) =
      (List.range k).map (fun i => min (2 ^ i) 60)) ∧
    (∀ d k, binanceRun d (true :: List.replicate k false) =
      (List.range (k + 1)).map (fun i => min (2 ^ i) 60)) ∧
    (∀ n, deribitRetryDelay n = min (2 * n) 30) := by
  refine ⟨?_, ?_, ?_⟩
  · intro k
    have h := binanceRun_replicate_aux k 0
    simpa using h
  · intro d k
    rw [List.range_succ_eq_map]
    simp only [binanceRun, binanceIter, if_pos rfl, if_true, List.map_cons]
    have h1 : min ((1 : Nat) * 2) 60 = min (2 ^ 1) 60 := by norm_num
    rw [h1, binanceRun_replicate_aux k 1]
    congr 1
    rw [List.map_map]
    apply List.map_congr_left
    intro i _
    simp only [Function.comp_apply, Nat.succ_eq_add_one]
    congr 2
    omega
  · intro n
    simp [deribitRetryDelay, Nat.mul_comm]

/-- C4 counterexample: inserting `capacity + 1` distinct keys into the
Bybit per-partition dedup cache does not settle it at `0.8 × capacity`:
`_update_cache` evicts only `size - max_cache_size` entries, so the cache
settles at exactly `capacity = 10000` keys, and `10000 ≠ 8000`. -/
theorem bybit_cache_settles_at_capacity :
    (bybitUpdateCache ([] : List Nat) (List.range (bybitMaxCacheSize + 1))).length =
      bybitMaxCacheSize ∧
    bybitMaxCacheSize ≠ bybitMaxCacheSize * 8 / 10 := by
  constructor
  · have hfold : (List.range (bybitMaxCacheSize + 1)).foldl cacheAdd [] =
        List.range (bybitMaxCacheSize + 1) := by
      have h := foldl_cacheAdd_fresh (List.range (bybitMaxCacheSize + 1)) []
      simpa using h (by simpa using List.nodup_range (bybitMaxCacheSize + 1))
    rw [bybitUpdateCache]
    simp only [hfold, List.length_range]
    rw [if_pos (by omega)]
    simp
  · decide

/-- C4 amended: after inserting `capacity + 1` distinct keys, one record
call per key (under the insertion-ordered model of the Python set), the
Binance per-partition cache settles at `int(0.8 × capacity)` keys, the
evicted entries are the oldest ones (the surviving cache is a suffix of the
insertion order), and the most recently inserted key is still present;
the Bybit cache instead settles at exactly `capacity` keys, evicting only
the single oldest entry. -/
theorem dedup_cache_eviction {α : Type} [DecidableEq α] :
    (∀ (l : List α) (a : α), (l ++ [a]).Nodup → l.length = binanceMaxCacheSize →
      (l ++ [a]).foldl binanceRecordTrade [] =
        l.drop (binanceMaxCacheSize + 1 - binanceMaxCacheSize * 8 / 10) ++ [a] ∧
      ((l ++ [a]).foldl binanceRecordTrade []).length = binanceMaxCacheSize * 8 / 10 ∧
      a ∈ (l ++ [a]).foldl binanceRecordTrade []) ∧
    (∀ ks : List α, ks.Nodup → ks.length = bybitMaxCacheSize + 1 →
      bybitUpdateCache [] ks = ks.drop 1 ∧
      (bybitUpdateCache [] ks).length = bybitMaxCacheSize) := by
  constructor
  · intro l a hnd hl
    have ha : a ∉ l := fun hmem =>
      (List.disjoint_of_nodup_append hnd) hmem (List.mem_singleton_self a)
    have hnodup_l : (([] : List α) ++ l).Nodup := by
      simpa using hnd.of_append_left
    have hlen_l : ([] : List α).length + l.length ≤ binanceMaxCacheSize := by
      simp [hl]
    have hfold_l : l.foldl binanceRecordTrade [] = l := by
      simpa using foldl_binanceRecord_no_evict l [] hnodup_l hlen_l
    have hcond : binanceMaxCacheSize < (l ++ [a]).length := by
      simp [hl]
    have hle : (l ++ [a]).length - binanceMaxCacheSize * 8 / 10 ≤ l.length := by
      simp only [List.length_append, List.length_singleton, hl]
      decide
    have hdropeq : (l ++ [a]).length - binanceMaxCacheSize * 8 / 10 =
        binanceMaxCacheSize + 1 - binanceMaxCacheSize * 8 / 10 := by
      simp [hl]
    have hstep : binanceRecordTrade l a =
        l.drop (binanceMaxCacheSize + 1 - binanceMaxCacheSize * 8 / 10) ++ [a] := by
      rw [binanceRecordTrade, cacheAdd_fresh l a ha, binanceCleanupCache, if_pos hcond,
          List.drop_append_of_le_length hle, hdropeq]
    have hmain : (l ++ [a]).foldl binanceRecordTrade [] =
        l.drop (binanceMaxCacheSize + 1 - binanceMaxCacheSize * 8 / 10) ++ [a] := by
      rw [List.foldl_append, hfold_l]
      simp only [List.foldl_cons, List.foldl_nil]
      exact hstep
    refine ⟨hmain, ?_, ?_⟩
    · rw [hmain]
      simp only [List.length_append, List.length_drop, List.length_singleton, hl]
      decide
    · rw [hmain]
      exact List.mem_append_right _ (List.mem_singleton_self a)
  · intro ks hnd hl
    have hfold : ks.foldl cacheAdd [] = ks := by
      simpa using foldl_cacheAdd_fresh ks [] (by simpa using hnd)
    have hcond : bybitMaxCacheSize < ks.length := by omega
    have hlen1 : ks.length - bybitMaxCacheSize = 1 := by omega
    have hupd : bybitUpdateCache [] ks = ks.drop 1 := by
      simp only [bybitUpdateCache, hfold]
      rw [if_pos hcond, hlen1]
    refine ⟨hupd, ?_⟩
    rw [hupd]
    simp only [List.length_drop, hl]
    omega

/-- Witness for C4 amended: the concrete key sequences `0, 1, ...,
capacity` for both caches. -/
theorem dedup_cache_eviction_witness :
    (List.range binanceMaxCacheSize ++ [binanceMaxCacheSize]).foldl binanceRecordTrade [] =
      (List.range binanceMaxCacheSize).drop
        (binanceMaxCacheSize + 1 - binanceMaxCacheSize * 8 / 10) ++ [binanceMaxCacheSize] ∧
    bybitUpdateCache [] (List.range (bybitMaxCacheSize + 1)) =
      (List.range (bybitMaxCacheSize + 1)).drop 1 :=
  ⟨(dedup_cache_eviction.1 (List.range binanceMaxCacheSize) binanceMaxCacheSize
      (by rw [← List.range_succ]; exact List.nodup_range _) (List.length_range _)).1,
   (dedup_cache_eviction.2 (List.range (bybitMaxCacheSize + 1)) (List.nodup_range _)
      (List.length_range _)).1⟩

/-- C5 counterexample: in the Binance normalizer — one of the code locations
the claim is about — a payload with an unparsable `price` but valid trade
id, symbol and quantity yields no record at all (`_process_single_trade`
returns before building the record), not a record with `price = None`. -/
theorem binance_unparsable_price_discards_record :
    binanceProcessSingleTrade (binancePayloadWithP (.str "abc")) [] 0 = Option.none := by
  decide

/-- C5 amended: the two cited normalizers treat an unparsable price
differently.  In the OKX normalizer, `px` (like `markPx`/`idxPx`) goes
through `_safe_float`, so for every price value — parsable or not — the
record is kept, with `price = None` exactly when `_safe_float` yields
`None`; a payload missing `tradeId` yields no record at all.  But not every
non-identity numeric field is defensive there: an unparsable `sz` (the
amount) discards the whole OKX record.  In the Binance normalizer the
price is mandatory: a price that is falsy or fails `float()` discards the
record, as does a missing/unparsable trade id. -/
theorem normalizer_resilience :
    (∀ pxv : PyVal, okxProcessTrade (okxPayloadWithPx pxv) =
      some { trade_id := .str "123", mark_price := Option.none,
             amount := ((10 : Nat) : Rat) * (0.01 : Rat),
             instrument_name := .str "BTC-29MAR24-60000-C",
             index_price := Option.none, direction := .str "buy",
             price := safeFloatVal pxv, iv := Option.none,
             timestamp := ((1711700000000 : Nat) : Int) }) ∧
    okxProcessTrade okxPayloadNoTradeId = Option.none ∧
    okxProcessTrade okxPayloadBadSz = Option.none ∧
    (∀ pv : PyVal, pyTruthy pv = false ∨ (∃ e, pythonFloat pv = Except.error e) →
      binanceProcessSingleTrade (binancePayloadWithP pv) [] 0 = Option.none) := by
  refine ⟨?_, rfl, rfl, ?_⟩
  · intro pxv
    have hE : okxProcessTradeE (okxPayloadWithPx pxv) =
        Except.bind (okxSafeFloat pxv) (fun price => Except.ok
          { trade_id := .str "123", mark_price := Option.none,
            amount := ((10 : Nat) : Rat) * (0.01 : Rat),
            instrument_name := .str "BTC-29MAR24-60000-C",
            index_price := Option.none, direction := .str "buy",
            price := price, iv := Option.none,
            timestamp := ((1711700000000 : Nat) : Int) }) := rfl
    rw [okxProcessTrade, hE, okxSafeFloat_eq]
    rfl
  · intro pv h
    have hcase : tryConvert pv (pythonFloat pv) = some Option.none ∨
        tryConvert pv (pythonFloat pv) = Option.none := by
      rcases h with hp | ⟨e, hf⟩
      · left; simp [tryConvert, hp]
      · by_cases hp : pyTruthy pv = true
        · right; simp [tryConvert, hp, hf]
        · left; simp [tryConvert, Bool.of_not_eq_true hp]
    unfold binanceProcessSingleTrade
    simp only [show dgetD (binancePayloadWithP pv) "p" (PyVal.str "") = pv from rfl]
    rcases hcase with hth | hth <;> rw [hth] <;> rfl

/-- Witness for C5 amended: the unparsable string price `"abc"` keeps the
OKX record with `price = None` and discards the Binance record. -/
theorem normalizer_resilience_witness :
    okxProcessTrade (okxPayloadWithPx (.str "abc")) =
      some { trade_id := .str "123", mark_price := Option.none,
             amount := ((10 : Nat) : Rat) * (0.01 : Rat),
             instrument_name := .str "BTC-29MAR24-60000-C",
             index_price := Option.none, direction := .str "buy",
             price := safeFloatVal (.str "abc"), iv := Option.none,
             timestamp := ((1711700000000 : Nat) : Int) } ∧
    binanceProcessSingleTrade (binancePayloadWithP (.str "abc")) [] 0 = Option.none :=
  ⟨normalizer_resilience.1 (.str "abc"),
   normalizer_resilience.2.2.2 (.str "abc")
     (Or.inr ⟨PyErr.valueError, rfl⟩)⟩

/-- C6 counterexample: the claimed "Live if and only if the gap is below 2
hours" fails for a collector that is already in Live mode: after persisting
a page whose newest candle is 8 hours old (gap `≥ 2` hours), the mode is
still Live — `_collect_currency_data` only evaluates the staleness check
while `catching_up` is true and never falls back to Catching-up. -/
theorem ohlc_live_mode_persists_when_stale :
    (ohlcAfterPersist ⟨false, 0⟩ 0 (8 * 3600 * 1000)).catchingUp = false ∧
    ¬ ((8 * 3600 * 1000 : Int) - 0 < twoHoursMs) := by
  constructor
  · rfl
  · decide

/-- C6 amended: after persisting a page of new candles, the cursor always
advances to the page's maximal `open_time`, and the mode is Live afterwards
iff the collector was already Live or `now - max(open_time)` is below 2
hours: a Catching-up collector switches to Live exactly when the gap is
below 2 hours; a Live collector stays Live regardless of the gap.  The
startup seeding (`_check_last_saved_data`) leaves catch-up mode exactly
when the last persisted candle is younger than 2 hours. -/
theorem ohlc_mode_transition (st : OhlcStatus) (page_max now : Int) :
    (ohlcAfterPersist st page_max now).lastTimestamp = page_max ∧
    ((ohlcAfterPersist st page_max now).catchingUp = false ↔
      (st.catchingUp = false ∨ now - page_max < twoHoursMs)) ∧
    (∀ result earliest : Int,
      (ohlcInitStatus (some result) earliest now).catchingUp = false ↔
        now - result < twoHoursMs) := by
  refine ⟨?_, ?_, ?_⟩
  · unfold ohlcAfterPersist
    by_cases hc : st.catchingUp <;> by_cases ht : now - page_max < twoHoursMs <;>
      simp [hc, ht]
  · unfold ohlcAfterPersist
    by_cases hc : st.catchingUp <;> by_cases ht : now - page_max < twoHoursMs <;>
      simp [hc, ht]
  · intro result earliest
    unfold ohlcInitStatus
    by_cases ht : now - result < twoHoursMs <;> simp [ht]

/-- C7: the claim that every item enqueued before `stop()` is processed
before the processor task exits fails on the code: `BinanceCollector.stop`
cancels `_trade_processor_task` first and only then awaits
`trade_queue.join()`.  Evaluated at a queue holding one pending item:
after the stop sequence the item is still pending and nothing more is ever
processed (the cancelled processor is a fixed point of every further
scheduling step), and `join()` can never complete. -/
theorem binance_stop_drops_queued_items :
    ((binanceStop ⟨[42], [], true⟩).1).pending = [42] ∧
    ((binanceStop ⟨[42], [], true⟩).1).processed = [] ∧
    (binanceStop ⟨[42], [], true⟩).2 = false ∧
    (∀ k : Nat, processorStep^[k] (binanceStop ⟨[42], [], true⟩).1 =
      (binanceStop ⟨[42], [], true⟩).1) := by
  refine ⟨rfl, rfl, rfl, ?_⟩
  intro k
  exact Function.iterate_fixed rfl k

/-- C8 counterexample: when the OKX/Deribit websocket strategy exhausts its
budget of 5 consecutive failed reconnect attempts, it does not escalate a
failure to the outer loop — `_collect_data` returns normally after setting
`self.running = False`, so the outer loop records the cycle as successful
and then exits: with `running = false` it executes zero further cycles,
terminating the collector instead of retrying. -/
theorem okx_retry_exhaustion_terminates_collector :
    okxCollectData (List.replicate 5 false) = false ∧
    (runLoop ⟨false, 0, 0, 0⟩ [CycleResult.ok]).2.2 = 0 := by
  constructor
  · decide
  · rfl

/-- C8 amended: the retry budget ends the collector rather than escalating:
a cycle whose connect attempts are `k` consecutive failures leaves
`running` true iff `k < 5`, a successful attempt resets the budget (after
`j < 5` failures, a success and then `k` failures, `running` survives iff
`k < 5`), and the cycle never raises — the loop catches every exception,
so the outer loop never observes a failure from it. -/
theorem okx_retry_budget (j k : Nat) :
    okxCollectData (List.replicate k false) = decide (k < 5) ∧
    (j < 5 → okxCollectData (List.replicate j false ++ true :: List.replicate k false) =
      decide (k < 5)) := by
  constructor
  · rw [okxCollectData, okxRetryLoop_replicate k 0 (by omega)]
    by_cases h : k < 5
    · rw [if_neg (by omega)]
      simp [h]
    · rw [if_pos (by omega)]
      simp [h]
  · intro hj
    rw [okxCollectData, okxRetryLoop_skip_success j 0 (List.replicate k false) (by omega),
        okxRetryLoop_replicate k 0 (by omega)]
    by_cases h : k < 5
    · rw [if_neg (by omega)]
      simp [h]
    · rw [if_pos (by omega)]
      simp [h]

/-- Witness for C8 amended: two failures, a success, then five failures
exhaust the budget and stop the collector. -/
theorem okx_retry_budget_witness :
    okxCollectData (List.replicate 2 false ++ true :: List.replicate 5 false) =
      decide (5 < 5) :=
  (okx_retry_budget 2 5).2 (by decide)
